import Mathlib

/-!
Shallow embedding of the Snake game (src/direction.rs, src/object.rs,
src/snake.rs, src/game.rs) and verification of the spec's claims.

Modelling conventions:
* `Point` (bracket_terminal, i32 coordinates) is a pair of `Int`s.
* `RGB` (f32 triples) is a triple of `ℚ`; the game only constructs and
  stores the four colour constants, never computes with them.
* `VecDeque<Object>` is a `List Object` with the front of the deque at the
  head of the list, so `push_front` is `cons`, `pop_back` pops the last
  element, `self[i]` is indexing from the head.
* Rust indexing panics (`self[0]` on an empty deque) are totalised with
  `List.getD _ dummyObject`; all claims that touch these paths carry the
  non-emptiness hypotheses under which the source cannot panic.
* The RNG (`spawn_locations.choose(&mut self.rng)`) is modelled by an
  arbitrary `pick : Nat` index into the candidate list, and the elapsed
  time `update_delta : f64` by an exact rational, so `choose`'s result and
  the timing gate are quantified over all oracles.
* `spawn_fruit`'s `.expect("Failed to spawn fruit")` (a panic on an empty
  candidate list) is modelled by an `Option` result, `none` being the
  fatal branch.
-/

namespace SnakeVerify

/-- Integer grid point, the shallow embedding of `bracket_terminal`'s
`Point` with `i32` coordinates. -/
structure Pt where
  x : Int
  y : Int
deriving DecidableEq, Repr

def Pt.add (a b : Pt) : Pt := ⟨a.x + b.x, a.y + b.y⟩

instance : Add Pt := ⟨Pt.add⟩

/-- Colour triple; `f32` fields embedded as exact rationals (the game only
stores colour constants, it never computes with them). -/
structure RGB where
  r : ℚ
  g : ℚ
  b : ℚ
deriving DecidableEq, Repr

/-- src/direction.rs: the four-way compass enum. -/
inductive Direction where
  | North
  | East
  | South
  | West
deriving DecidableEq, Repr

/-- src/direction.rs, `impl Into<Point> for Direction`. -/
def Direction.to_vector : Direction → Pt
  | .North => ⟨0, -1⟩
  | .East => ⟨1, 0⟩
  | .South => ⟨0, 1⟩
  | .West => ⟨-1, 0⟩

/-- src/object.rs: a positioned glyph. -/
structure Object where
  position : Pt
  glyph : Char
  colour : RGB
deriving DecidableEq, Repr

/-- Fallback object for totalised Rust indexing; never reachable under the
hypotheses of the claims. -/
def dummyObject : Object := ⟨⟨0, 0⟩, ' ', ⟨0, 0, 0⟩⟩

-- Constants from src/game.rs (`impl Game`).
def MAP_DIMENSIONS : Nat × Nat := (25, 25)

def MAP_CENTRE : Nat × Nat := (MAP_DIMENSIONS.1 / 2, MAP_DIMENSIONS.2 / 2)

def FRUIT_GLYPH : Char := '*'

def FRUIT_COLOUR : RGB := ⟨1, 1/2, 1/2⟩

def BACKGROUND_COLOUR : RGB := ⟨7/40, 1/5, 9/40⟩

def SLITHERS_PER_SECOND : Nat := 15

/-- src/snake.rs: the snake. `body` is the `VecDeque<Object>` with the
deque's front at the list's head. -/
structure Snake where
  body : List Object
  direction : Direction
  popped_tail : Option Object
  requires_corner_update : Bool
  alive : Bool
deriving DecidableEq, Repr

namespace Snake

-- Constants from src/snake.rs (`impl Snake`), source names kept
-- (including the `STARTING_DIRECTIN` typo).
def STARTING_DIRECTIN : Direction := .East

def STARTING_LENGTH : Nat := 5

def HORIZONTAL_GLYPH : Char := '═'

def VERTICAL_GLYPH : Char := '║'

def CORNER_GLYPHS : Char × Char × Char × Char := ('╔', '╗', '╚', '╝')

def COLOUR : RGB := ⟨1/2, 1, 1/2⟩

def DEAD_COLOUR : RGB := ⟨1/2, 1/2, 1/2⟩

/-- src/snake.rs, `Snake::set_direction`. The source indexes `self[0]` and
`self[1]`, which panics for bodies of length < 2; the game only calls it on
live snakes (length ≥ 2), and the `| _ => s` branch is out of the source's
domain. -/
def set_direction (s : Snake) (direction : Direction) : Snake :=
  match s.body with
  | h :: n :: _ =>
    if h.position + direction.to_vector ≠ n.position then
      { s with direction := direction, requires_corner_update := true }
    else s
  | _ => s

/-- src/snake.rs, `Snake::grow`. Note the source does not clear
`popped_tail` after reinserting it. -/
def grow (s : Snake) : Snake :=
  match s.popped_tail with
  | some tail => { s with body := s.body ++ [tail] }
  | none => s

/-- Write the glyph of the element at index `i` (Rust's
`self.get_mut(i).unwrap().glyph = c` / `self.back_mut().unwrap().glyph = c`);
out-of-range indices leave the list unchanged (unreachable in the guarded
source paths). -/
def setGlyph (l : List Object) (i : Nat) (c : Char) : List Object :=
  match l.get? i with
  | some o => l.set i { o with glyph := c }
  | none => l

/-- The straightened tail of `Snake::update_corner_glyphs` (the first
glyph rewrite of the pass). -/
def straighten_tail (body : List Object) : List Object :=
  let new_glyph := (body.getD (body.length - 2) dummyObject).glyph
  let tail := body.getD (body.length - 1) dummyObject
  if (new_glyph = HORIZONTAL_GLYPH ∨ new_glyph = VERTICAL_GLYPH) ∧
      tail.glyph ≠ HORIZONTAL_GLYPH ∧ tail.glyph ≠ VERTICAL_GLYPH then
    setGlyph body (body.length - 1) new_glyph
  else body

/-- The corner-glyph rewrite of `Snake::update_corner_glyphs` applied to
the already tail-straightened body (`head` is the head captured before
either rewrite; only its position is read). -/
def corner_pass (head : Object) (body1 : List Object) : List Object :=
  let neck_1 := body1.getD 2 dummyObject
  let neck_0 := body1.getD 1 dummyObject
  if neck_1.position.x ≠ neck_0.position.x then
    if neck_0.position.y < head.position.y then
      setGlyph body1 1
        (if neck_0.position.x < neck_1.position.x then CORNER_GLYPHS.1
         else CORNER_GLYPHS.2.1)
    else if head.position.y < neck_0.position.y then
      setGlyph body1 1
        (if neck_0.position.x < neck_1.position.x then CORNER_GLYPHS.2.2.1
         else CORNER_GLYPHS.2.2.2)
    else body1
  else if neck_1.position.y ≠ neck_0.position.y then
    if neck_0.position.x < head.position.x then
      setGlyph body1 1
        (if neck_0.position.y < neck_1.position.y then CORNER_GLYPHS.1
         else CORNER_GLYPHS.2.2.1)
    else if head.position.x < neck_0.position.x then
      setGlyph body1 1
        (if neck_0.position.y < neck_1.position.y then CORNER_GLYPHS.2.1
         else CORNER_GLYPHS.2.2.2)
    else body1
  else body1

/-- src/snake.rs, `Snake::update_corner_glyphs`. When the corner branch is
skipped (`requires_corner_update` false) the flag was already false, so
writing `false` unconditionally under the length guard matches the
source. -/
def update_corner_glyphs (s : Snake) : Snake :=
  if 2 < s.body.length then
    let body1 := straighten_tail s.body
    let body2 :=
      if s.requires_corner_update then corner_pass (s.body.getD 0 dummyObject) body1
      else body1
    { s with body := body2, requires_corner_update := false }
  else s

/-- Rust `VecDeque::pop_back`: the popped element (if any) and the rest. -/
def popBack (l : List Object) : Option Object × List Object :=
  match l.getLast? with
  | some t => (some t, l.dropLast)
  | none => (none, l)

/-- The `out_of_bounds` test of `Snake::update` (current head, before
moving), in source order. -/
def out_of_bounds_check (head : Object) : Bool :=
  decide (head.position.x < 0) || decide ((MAP_DIMENSIONS.1 : Int) ≤ head.position.x) ||
  decide (head.position.y < 0) || decide ((MAP_DIMENSIONS.2 : Int) ≤ head.position.y)

/-- The `self_collision` test of `Snake::update`: `self.range(1..)`
compared against the current head's position. -/
def self_collision_check (body : List Object) (head : Object) : Bool :=
  (body.drop 1).any (fun seg => decide (seg.position = head.position))

/-- First half of `Snake::update`: while alive, re-evaluate `alive` from
the collision state of the current head and recolour every segment on
death. -/
def death_pass (s : Snake) : Snake :=
  if s.alive then
    let head := s.body.getD 0 dummyObject
    let s2 := { s with alive := !self_collision_check s.body head && !out_of_bounds_check head }
    if s2.alive then s2
    else { s2 with body := s2.body.map (fun seg => { seg with colour := DEAD_COLOUR }) }
  else s

/-- The glyph `Snake::update` gives the new head, by axis of travel. -/
def direction_glyph : Direction → Char
  | .North | .South => VERTICAL_GLYPH
  | .East | .West => HORIZONTAL_GLYPH

/-- Second half of `Snake::update` while still alive: pop the tail into
`popped_tail`, push the moved head, repaint corners. -/
def move_head (s1 : Snake) : Snake :=
  let head0 := s1.body.getD 0 dummyObject
  let head := { head0 with
    position := head0.position + s1.direction.to_vector,
    glyph := direction_glyph s1.direction }
  update_corner_glyphs
    { s1 with body := head :: (popBack s1.body).2, popped_tail := (popBack s1.body).1 }

/-- src/snake.rs, `impl Obj for Snake`, `fn update`. -/
def update (s : Snake) : Snake :=
  let s1 := death_pass s
  if s1.alive then move_head s1 else { s1 with body := s1.body.tail }

end Snake

/-- src/snake.rs, `impl Default for Snake`. -/
def Snake.default : Snake :=
  let spawn_point : Pt := ⟨(MAP_CENTRE.1 : Int), (MAP_CENTRE.2 : Int)⟩
  let body_segment : Object := ⟨spawn_point, Snake.HORIZONTAL_GLYPH, Snake.COLOUR⟩
  let body0 := List.replicate (Snake.STARTING_LENGTH - 1) body_segment
  let head := { body_segment with position := body_segment.position + Snake.STARTING_DIRECTIN.to_vector }
  { body := head :: body0
    direction := Snake.STARTING_DIRECTIN
    popped_tail := none
    requires_corner_update := false
    alive := true }

/-- src/game.rs: the game state. The RNG stream and the update timestamps
are external oracles (see the module comment), so they are not fields. -/
structure Game where
  snake : Snake
  fruit : Object
  score : Nat
  game_over : Bool
  paused : Bool
deriving DecidableEq, Repr

namespace Game

/-- One `snake_segment_points.any(|p| p == point)` probe of
`Game::get_empty_points`. The source creates the segment-position iterator
ONCE, outside the double loop, so each probe consumes it: this returns
whether a match was found together with the part of the iterator left
after the probe (everything up to and including the first match, or the
whole iterator on a miss, is consumed). -/
def scanAny : List Pt → Pt → Bool × List Pt
  | [], _ => (false, [])
  | q :: rest, p => if q = p then (true, rest) else scanAny rest p

/-- The double loop of `Game::get_empty_points`, threading the consumed
iterator state `rem` through the probes in point order. -/
def get_empty_points_go (rem : List Pt) (fruitPos : Pt) : List Pt → List Pt
  | [] => []
  | p :: ps =>
    let r := scanAny rem p
    if r.1 = false ∧ fruitPos ≠ p then p :: get_empty_points_go r.2 fruitPos ps
    else get_empty_points_go r.2 fruitPos ps

/-- The map cells enumerated by `Game::get_empty_points`, in loop order
(`for y { for x }`); the Rust `(x as f32, y as f32)`-to-`Point` conversion
is the identity on `0..25`. -/
def raster_points : List Pt :=
  (List.range MAP_DIMENSIONS.2).flatMap
    (fun y => (List.range MAP_DIMENSIONS.1).map (fun x => ⟨Int.ofNat x, Int.ofNat y⟩))

/-- src/game.rs, `Game::get_empty_points`. -/
def get_empty_points (g : Game) : List Pt :=
  get_empty_points_go (g.snake.body.map Object.position) g.fruit.position raster_points

/-- src/game.rs, `Game::spawn_fruit`; `choose` is modelled by the oracle
index `pick`, and the `.expect("Failed to spawn fruit")` panic by `none`. -/
def spawn_fruit (pick : Nat) (g : Game) : Option Game :=
  let spawn_locations := g.get_empty_points
  match spawn_locations with
  | [] => none
  | _ =>
    some { g with fruit := { g.fruit with
      position := spawn_locations.getD (pick % spawn_locations.length) ⟨0, 0⟩ } }

/-- src/game.rs, `Game::update_snake`; the elapsed time is the oracle
`delta`. -/
def update_snake (delta : ℚ) (g : Game) : Game :=
  if (!g.snake.alive || !g.game_over) && decide ((1 : ℚ) / (SLITHERS_PER_SECOND : ℚ) < delta) then
    { g with snake := g.snake.update }
  else g

/-- First block of `Game::handle_logic` ("Check and store the status of
the game"): set `game_over` sticky from the win (`len == 625`) and loss
(`!alive`) conditions. -/
def check_status (g : Game) : Game :=
  if g.game_over = false then
    let won : Bool := g.snake.body.length = MAP_DIMENSIONS.1 * MAP_DIMENSIONS.2
    let lost : Bool := !g.snake.alive
    { g with game_over := won || lost }
  else g

/-- Second block of `Game::handle_logic`: if the game is not over and the
head collides with the fruit, bump the score, grow the snake and respawn
the fruit. -/
def eat_check (pick : Nat) (g1 : Game) : Option Game :=
  if g1.game_over = false ∧
      (g1.snake.body.getD 0 dummyObject).position = g1.fruit.position then
    spawn_fruit pick { g1 with score := g1.score + 1, snake := g1.snake.grow }
  else some g1

/-- src/game.rs, `Game::handle_logic`: status check, fruit-collision
check, then the gated snake update. -/
def handle_logic (pick : Nat) (delta : ℚ) (g : Game) : Option Game :=
  (eat_check pick (check_status g)).map (update_snake delta)

/-- src/game.rs, `Game::reset` (the timestamp reset is part of the time
oracle). -/
def reset (pick : Nat) (g : Game) : Option Game :=
  (spawn_fruit pick { g with snake := Snake.default }).map
    (fun g2 => { g2 with score := 0, game_over := false })

end Game

/-- The keyboard keys `Game::execute_input` distinguishes. -/
inductive Key where
  | W
  | A
  | S
  | D
  | Up
  | Down
  | Left
  | Right
  | Escape
  | P
  | R
  | Other
deriving DecidableEq, Repr

/-- src/direction.rs, `impl TryFrom<VirtualKeyCode> for Direction`. -/
def Direction.try_from : Key → Option Direction
  | .W | .Up => some .North
  | .A | .Left => some .West
  | .S | .Down => some .South
  | .D | .Right => some .East
  | _ => none

namespace Game

/-- src/game.rs, `Game::execute_input`; the `.unwrap()` on `try_into` is
total on the movement keys of the surrounding match arm. -/
def execute_input (pick : Nat) (g : Game) (key : Key) : Option Game :=
  if g.game_over = false then
    some (match key with
      | .W | .A | .S | .D | .Up | .Down | .Left | .Right =>
        if g.snake.alive = true ∧ g.paused = false then
          { g with snake := g.snake.set_direction ((Direction.try_from key).getD .North) }
        else g
      | .Escape | .P => { g with paused := !g.paused }
      | _ => g)
  else if key = Key.R then reset pick g
  else some g

/-- src/game.rs, `Game::handle_input`: drain the pending key events in
arrival order (`CloseRequested` terminates the host loop and is not a
state change). -/
def handle_input (pick : Nat) (keys : List Key) (g : Game) : Option Game :=
  keys.foldlM (execute_input pick) g

/-- src/game.rs, `impl GameState for Game`, `fn tick`: input, then logic
unless paused (rendering does not change the state). -/
def tick (keys : List Key) (pick_reset pick_fruit : Nat) (delta : ℚ) (g : Game) :
    Option Game := do
  let g1 ← handle_input pick_reset keys g
  if g1.paused = false then handle_logic pick_fruit delta g1 else pure g1

/-- The `Game` value built by `Game::new` just before its `spawn_fruit()`
call: default snake, fruit initially positioned outside the map at
`(-1, -1)`. -/
def initial_game : Game :=
  { snake := Snake.default
    fruit := ⟨⟨-1, -1⟩, FRUIT_GLYPH, FRUIT_COLOUR⟩
    score := 0
    game_over := false
    paused := false }

/-- src/game.rs, `Game::new`. -/
def game_new (pick : Nat) : Option Game := spawn_fruit pick initial_game

/-- The game states reachable from a fresh game by ticks, over all input,
RNG and timing oracles. -/
inductive Reachable : Game → Prop where
  | init : ∀ pick g, game_new pick = some g → Reachable g
  | step : ∀ g keys p1 p2 (delta : ℚ) g2, Reachable g →
      tick keys p1 p2 delta g = some g2 → Reachable g2

/-- What `Game::handle_rendering` draws, reduced to the screen-level
outcome the claims talk about: the pause label, the game-over screen with
its centre line, or normal play (snake plus fruit). -/
inductive RenderOutput where
  | paused_screen
  | game_over_screen (message : String)
  | playing
deriving DecidableEq, Repr

/-- src/game.rs, `Game::handle_rendering`, reduced to `RenderOutput`. -/
def handle_rendering (g : Game) : RenderOutput :=
  if g.paused then .paused_screen
  else if g.game_over then
    .game_over_screen (if g.snake.alive then "You won!" else "Score: " ++ toString g.score)
  else .playing

end Game

/-! ### Auxiliary definitions for the invariants and for concrete test states -/

/-- Manhattan distance between grid points. -/
def dist (a b : Pt) : Nat := (a.x - b.x).natAbs + (a.y - b.y).natAbs

/-- Two grid points are adjacent when their Manhattan distance is at most 1
(equal or one axis-aligned step apart). Consecutive snake body segments are
always adjacent in this sense. -/
def adj (a b : Pt) : Prop := dist a b ≤ 1

instance (a b : Pt) : Decidable (adj a b) :=
  inferInstanceAs (Decidable (dist a b ≤ 1))

/-- Invariant of every snake the game can build: consecutive body segments
sit on adjacent cells, the body never exceeds the map's 625 cells, and the
held `popped_tail` (having been popped off the back) is adjacent to the
current back segment. -/
def SnakeInv (s : Snake) : Prop :=
  List.Chain' adj (s.body.map Object.position) ∧
  s.body.length ≤ MAP_DIMENSIONS.1 * MAP_DIMENSIONS.2 ∧
  (∀ t, s.popped_tail = some t →
    ∀ b, (s.body.map Object.position).getLast? = some b → adj t.position b)

/-- Invariant of every reachable game state. -/
def GameInv (g : Game) : Prop := SnakeInv g.snake

/-- Lower bound on the number of iterator elements
`Game::get_empty_points` must consume for its result to be empty, given
that the scan last matched at anchor `a`: each point of the list must be
matched by a later iterator element (walking at Manhattan speed ≤ 1 per
consumed element), except that the final point may instead coincide with
the fruit. -/
def needLB (fruit : Pt) : Pt → List Pt → Nat
  | _, [] => 0
  | a, [p] => if p = fruit then 0 else dist a p
  | a, p :: ps => dist a p + needLB fruit p ps

/-- Fruit-independent lower bound: like `needLB` but conceding the final
point entirely. -/
def needNF : Pt → List Pt → Nat
  | _, [] => 0
  | _, [_] => 0
  | a, p :: ps => dist a p + needNF p ps

/-- A full-map body (625 segments, one per cell), used to exercise the
win/game-over paths on concrete states. -/
def fullBody : List Object :=
  Game.raster_points.map (fun p => ⟨p, Snake.HORIZONTAL_GLYPH, Snake.COLOUR⟩)

/-- A live snake whose head is already out of bounds: the next `update`
runs the death branch. -/
def c7BadSnake : Snake :=
  { body := [⟨⟨-1, 0⟩, Snake.HORIZONTAL_GLYPH, Snake.COLOUR⟩]
    direction := .West
    popped_tail := none
    requires_corner_update := false
    alive := true }

/-- A game that has filled the map but whose snake is dead, and which is
paused: exercises the win-check edge cases. -/
def c8LostGame : Game :=
  { snake :=
      { body := fullBody
        direction := .East
        popped_tail := none
        requires_corner_update := false
        alive := false }
    fruit := ⟨⟨-1, -1⟩, FRUIT_GLYPH, FRUIT_COLOUR⟩
    score := 7
    game_over := false
    paused := true }

/-- A game that has just filled the map with a live snake, unpaused. -/
def c8WinGame : Game :=
  { snake :=
      { body := fullBody
        direction := .East
        popped_tail := none
        requires_corner_update := false
        alive := true }
    fruit := ⟨⟨-1, -1⟩, FRUIT_GLYPH, FRUIT_COLOUR⟩
    score := 0
    game_over := false
    paused := false }

/-- The concrete result of `Game::new` when the RNG picks index 0: the
fruit lands on `(0, 0)`. -/
def c9Game : Game :=
  { Game.initial_game with fruit := ⟨⟨0, 0⟩, FRUIT_GLYPH, FRUIT_COLOUR⟩ }

/-- The default snake after one update: `popped_tail` holds the popped
back segment. -/
def exSnakeWithTail : Snake := Snake.default.update

/-- The segment `exSnakeWithTail` popped off its back. -/
def exTailObj : Object := ⟨⟨12, 12⟩, Snake.HORIZONTAL_GLYPH, Snake.COLOUR⟩

/-- A concrete dead snake with a two-segment body. -/
def exDeadSnake : Snake :=
  { body := [⟨⟨3, 3⟩, Snake.HORIZONTAL_GLYPH, Snake.DEAD_COLOUR⟩,
             ⟨⟨4, 3⟩, Snake.HORIZONTAL_GLYPH, Snake.DEAD_COLOUR⟩]
    direction := .West
    popped_tail := none
    requires_corner_update := false
    alive := false }

/-! ### Helper lemmas -/

theorem set_self_of_get? {α : Type} : ∀ (l : List α) (i : Nat) (a : α),
    l.get? i = some a → l.set i a = l := by
  intro l
  induction l with
  | nil => intro i a h; cases h
  | cons x t ih =>
    intro i a h
    cases i with
    | zero =>
      simp only [List.get?] at h
      cases h
      rfl
    | succ j =>
      simp only [List.get?] at h
      simp only [List.set]
      rw [ih j a h]

theorem setGlyph_map_position (l : List Object) (i : Nat) (c : Char) :
    (Snake.setGlyph l i c).map Object.position = l.map Object.position := by
  unfold Snake.setGlyph
  cases hg : l.get? i with
  | none => rfl
  | some o =>
    rw [List.map_set]
    apply set_self_of_get?
    simp only [List.get?_eq_getElem?, List.getElem?_map] at hg ⊢
    rw [hg]
    rfl

theorem setGlyph_length (l : List Object) (i : Nat) (c : Char) :
    (Snake.setGlyph l i c).length = l.length := by
  unfold Snake.setGlyph
  cases hg : l.get? i with
  | none => rfl
  | some o => exact List.length_set ..

theorem straighten_tail_map_position (body : List Object) :
    (Snake.straighten_tail body).map Object.position = body.map Object.position := by
  unfold Snake.straighten_tail
  dsimp only
  split
  · exact setGlyph_map_position ..
  · rfl

theorem corner_pass_map_position (head : Object) (body1 : List Object) :
    (Snake.corner_pass head body1).map Object.position = body1.map Object.position := by
  unfold Snake.corner_pass
  dsimp only
  split
  · split
    · exact setGlyph_map_position ..
    · split
      · exact setGlyph_map_position ..
      · rfl
  · split
    · split
      · exact setGlyph_map_position ..
      · split
        · exact setGlyph_map_position ..
        · rfl
    · rfl

theorem ucg_map_position (s : Snake) :
    (s.update_corner_glyphs).body.map Object.position = s.body.map Object.position := by
  unfold Snake.update_corner_glyphs
  split
  · show (if s.requires_corner_update then _ else _ : List Object).map Object.position = _
    split
    · rw [corner_pass_map_position, straighten_tail_map_position]
    · exact straighten_tail_map_position _
  · rfl

theorem ucg_length (s : Snake) :
    (s.update_corner_glyphs).body.length = s.body.length := by
  have h := congrArg List.length (ucg_map_position s)
  simpa using h

theorem ucg_fields (s : Snake) :
    (s.update_corner_glyphs).popped_tail = s.popped_tail ∧
    (s.update_corner_glyphs).alive = s.alive ∧
    (s.update_corner_glyphs).direction = s.direction := by
  unfold Snake.update_corner_glyphs
  split
  · exact ⟨rfl, rfl, rfl⟩
  · exact ⟨rfl, rfl, rfl⟩

theorem popBack_snd (l : List Object) : (Snake.popBack l).2 = l.dropLast := by
  unfold Snake.popBack
  cases hl : l.getLast? with
  | none =>
    have : l = [] := List.getLast?_eq_none_iff.mp hl
    simp [this]
  | some t => rfl

theorem popBack_fst (l : List Object) : (Snake.popBack l).1 = l.getLast? := by
  unfold Snake.popBack
  cases hl : l.getLast? with
  | none => rfl
  | some t => rfl

theorem death_pass_of_survive (s : Snake) (halive : s.alive = true)
    (hoob : Snake.out_of_bounds_check (s.body.getD 0 dummyObject) = false)
    (hcol : Snake.self_collision_check s.body (s.body.getD 0 dummyObject) = false) :
    Snake.death_pass s = s := by
  obtain ⟨body, dir, pt, rcu, alive⟩ := s
  simp only at halive hoob hcol
  subst halive
  simp only [List.getD, List.get?_eq_getElem?] at hcol hoob
  simp [Snake.death_pass, List.getD, List.get?_eq_getElem?, hcol, hoob]

theorem update_of_dead (s : Snake) (h : s.alive = false) :
    s.update = { s with body := s.body.tail } := by
  unfold Snake.update Snake.death_pass
  rw [h]
  simp only [Bool.false_eq_true, if_false]
  rw [h]
  simp only [Bool.false_eq_true, if_false]

theorem update_of_survive (s : Snake) (halive : s.alive = true)
    (hoob : Snake.out_of_bounds_check (s.body.getD 0 dummyObject) = false)
    (hcol : Snake.self_collision_check s.body (s.body.getD 0 dummyObject) = false) :
    s.update = Snake.move_head s := by
  unfold Snake.update
  rw [death_pass_of_survive s halive hoob hcol]
  dsimp only
  rw [halive]
  simp only [if_true]

theorem move_head_length (s : Snake) (hne : s.body ≠ []) :
    (Snake.move_head s).body.length = s.body.length := by
  unfold Snake.move_head
  rw [ucg_length]
  show ((_ :: (Snake.popBack s.body).2 : List Object)).length = _
  rw [popBack_snd]
  simp only [List.length_cons, List.length_dropLast]
  have : 0 < s.body.length := List.length_pos_of_ne_nil hne
  omega

theorem death_pass_length (s : Snake) :
    (Snake.death_pass s).body.length = s.body.length := by
  unfold Snake.death_pass
  split
  · dsimp only
    split
    · rfl
    · simp
  · rfl

theorem update_length_le (s : Snake) (hne : s.body ≠ []) :
    s.update.body.length ≤ s.body.length := by
  unfold Snake.update
  dsimp only
  split
  · have h1 : (Snake.death_pass s).body.length = s.body.length := death_pass_length s
    have h2 : (Snake.death_pass s).body ≠ [] := by
      intro hnil
      rw [hnil] at h1
      exact hne (List.length_eq_zero.mp h1.symm)
    rw [move_head_length _ h2, h1]
  · show (Snake.death_pass s).body.tail.length ≤ _
    rw [List.length_tail, death_pass_length]
    omega

/-! ### The claims -/

set_option maxRecDepth 100000 in
/-- **C1** (code bug evaluation): on the fresh game (default snake, fruit
still at `(-1, -1)`), `get_empty_points` fails to exclude the snake's
cells — its segment-position iterator is exhausted by the first probe — so
with RNG index 312 `spawn_fruit` places the fruit at `(12, 12)`, which is
occupied by four snake segments. The claim that the spawned fruit is never
on a snake segment is therefore violated by the code. -/
theorem claim_C1_spawn_on_snake :
    (Game.spawn_fruit 312 Game.initial_game).map (fun g => g.fruit.position) =
      some ⟨12, 12⟩ ∧
    (⟨12, 12⟩ : Pt) ∈ Game.initial_game.snake.body.map Object.position :=
  ⟨by rfl, by decide⟩

/-- **C2** (counterexample): after one `update` of the default snake a
`popped_tail` is held; `grow` does not clear it, so a second `grow` with
no `update` in between appends the same segment again (length 6 → 7)
instead of being a no-op as the claim states. -/
theorem claim_C2_counterexample :
    exSnakeWithTail.grow.grow.body.length = 7 ∧
    exSnakeWithTail.grow.body.length = 6 ∧
    exSnakeWithTail.grow.grow.body ≠ exSnakeWithTail.grow.body := by
  refine ⟨rfl, rfl, fun hEq => ?_⟩
  have hlen := congrArg List.length hEq
  rw [show exSnakeWithTail.grow.grow.body.length = 7 from rfl,
      show exSnakeWithTail.grow.body.length = 6 from rfl] at hlen
  cases hlen

/-- **C2** (amended): `grow` is a no-op exactly when `popped_tail` is
`none`; whenever `popped_tail = some t`, each call to `grow` appends `t`
at the tail (length + 1) and leaves `popped_tail` held (it is not
cleared), so a repeated `grow` without an intervening `update` appends
again. -/
theorem claim_C2_amended (s : Snake) :
    (s.popped_tail = none → s.grow = s) ∧
    (∀ t, s.popped_tail = some t →
      s.grow.body = s.body ++ [t] ∧ s.grow.popped_tail = some t ∧
      s.grow.body.length = s.body.length + 1) := by
  constructor
  · intro hn
    simp [Snake.grow, hn]
  · intro t ht
    refine ⟨by simp [Snake.grow, ht], by simp [Snake.grow, ht], by simp [Snake.grow, ht]⟩

/-- Witness for C2 (amended), at the default snake (no popped tail) and at
the default snake after one update (tail `(12, 12)` held). -/
theorem claim_C2_witness :
    Snake.default.grow = Snake.default ∧
    exSnakeWithTail.grow.body = exSnakeWithTail.body ++ [exTailObj] :=
  ⟨(claim_C2_amended Snake.default).1 rfl,
   ((claim_C2_amended exSnakeWithTail).2 exTailObj (by rfl)).1⟩

/-- **C4**: for a snake with at least two segments, `set_direction d` is a
complete no-op when the head plus `d`'s unit vector lands on `body[1]`,
and otherwise commits direction `d` (setting the repaint flag, leaving the
body unchanged); consequently the "head's next position" never overlaps
`body[1]` after a call, provided it did not already overlap when the call
is rejected. -/
theorem claim_C4_set_direction_guard (s : Snake) (d : Direction) (h n : Object)
    (rest : List Object) (hbody : s.body = h :: n :: rest) :
    (h.position + d.to_vector = n.position → s.set_direction d = s) ∧
    (h.position + d.to_vector ≠ n.position →
      (s.set_direction d).direction = d ∧
      (s.set_direction d).requires_corner_update = true ∧
      (s.set_direction d).body = s.body) ∧
    ((h.position + d.to_vector = n.position → h.position + s.direction.to_vector ≠ n.position) →
      h.position + (s.set_direction d).direction.to_vector ≠ n.position) := by
  have hsd : s.set_direction d =
      if h.position + d.to_vector ≠ n.position then
        { s with direction := d, requires_corner_update := true }
      else s := by
    unfold Snake.set_direction
    rw [hbody]
  by_cases hc : h.position + d.to_vector = n.position
  · rw [hsd, if_neg (not_not_intro hc)]
    exact ⟨fun _ => rfl, fun hne => absurd hc hne, fun hpre => hpre hc⟩
  · rw [hsd, if_pos hc]
    exact ⟨fun heq => absurd heq hc, fun _ => ⟨rfl, rfl, rfl⟩, fun _ => hc⟩

/-- Witness for C4 at the default snake: turning West (back into the neck)
is rejected wholesale, turning North is committed. -/
theorem claim_C4_witness :
    Snake.default.set_direction Direction.West = Snake.default ∧
    (Snake.default.set_direction Direction.North).direction = Direction.North := by
  refine ⟨?_, ?_⟩
  · exact (claim_C4_set_direction_guard Snake.default Direction.West
      ⟨⟨13, 12⟩, Snake.HORIZONTAL_GLYPH, Snake.COLOUR⟩
      ⟨⟨12, 12⟩, Snake.HORIZONTAL_GLYPH, Snake.COLOUR⟩
      (List.replicate 3 ⟨⟨12, 12⟩, Snake.HORIZONTAL_GLYPH, Snake.COLOUR⟩)
      (by rfl)).1 (by decide)
  · exact ((claim_C4_set_direction_guard Snake.default Direction.North
      ⟨⟨13, 12⟩, Snake.HORIZONTAL_GLYPH, Snake.COLOUR⟩
      ⟨⟨12, 12⟩, Snake.HORIZONTAL_GLYPH, Snake.COLOUR⟩
      (List.replicate 3 ⟨⟨12, 12⟩, Snake.HORIZONTAL_GLYPH, Snake.COLOUR⟩)
      (by rfl)).2.1 (by decide)).1

/-- **C5**: `alive` is monotone under `update` (never revives), and once
dead each `update` only removes the front (head-end) segment, leaving
every other field untouched; on an empty dead body `update` is a no-op. -/
theorem claim_C5_death_shrink (s : Snake) :
    (s.update.alive = true → s.alive = true) ∧
    (s.alive = false → s.update = { s with body := s.body.tail }) ∧
    (s.alive = false → s.body = [] → s.update = s) := by
  refine ⟨?_, update_of_dead s, ?_⟩
  · intro hu
    cases hA : s.alive with
    | true => rfl
    | false =>
      rw [update_of_dead s hA] at hu
      have h2 : s.alive = true := hu
      rw [hA] at h2
      cases h2
  · intro hf hb
    rw [update_of_dead s hf, hb]
    show ({ s with body := [] } : Snake) = s
    rw [← hb]

/-- Witness for C5: the concrete dead snake shrinks from the front, and at
the default snake the monotonicity implication is discharged with its
hypothesis (`update` keeps it alive). -/
theorem claim_C5_witness :
    exDeadSnake.update = { exDeadSnake with body := exDeadSnake.body.tail } ∧
    Snake.default.alive = true :=
  ⟨(claim_C5_death_shrink exDeadSnake).2.1 rfl,
   (claim_C5_death_shrink Snake.default).1 (by decide)⟩

theorem gate_bool (a o d : Bool) :
    ((!a || !o) && d) = (d && (!o || (o && !a))) := by
  cases a <;> cases o <;> cases d <;> rfl

/-- **C6**: `update_snake`'s gate `(!alive || !game_over) && delta-exceeded`
is exactly the spec's "elapsed time exceeds 1/SLITHERS_PER_SECOND AND (not
game over OR (game over AND not alive))": the same states run
`Snake.update` (death-shrink keeps animating after a loss; a win stops all
updates). -/
theorem claim_C6_update_gate (delta : ℚ) (g : Game) :
    Game.update_snake delta g =
      if decide ((1 : ℚ) / (SLITHERS_PER_SECOND : ℚ) < delta) &&
          (!g.game_over || (g.game_over && !g.snake.alive)) then
        { g with snake := g.snake.update }
      else g := by
  unfold Game.update_snake
  rw [gate_bool]

/-- **C7** (counterexample): a live snake whose head is already out of
bounds has alive = true and a non-empty body, yet `update` (which runs the
death branch and pops the front) changes the body length, refuting the
claim as stated for every live non-empty snake. -/
theorem claim_C7_counterexample :
    c7BadSnake.alive = true ∧ c7BadSnake.body ≠ [] ∧
    c7BadSnake.update.body.length ≠ c7BadSnake.body.length := by
  decide

/-- **C7** (amended): for a live snake with non-empty body whose head is in
bounds and not overlapped by any later segment, `update` preserves the
body length (tail popped, head pushed); `grow` adds exactly one segment
exactly when a `popped_tail` is held; and (for non-empty bodies) `update`
never increases the length. -/
theorem claim_C7_amended (s : Snake) (h : Object) (rest : List Object)
    (hbody : s.body = h :: rest) (halive : s.alive = true)
    (hoob : Snake.out_of_bounds_check h = false)
    (hcol : ∀ seg ∈ rest, seg.position ≠ h.position) :
    s.update.body.length = s.body.length ∧
    (∀ t, s.popped_tail = some t → s.grow.body.length = s.body.length + 1) ∧
    (s.popped_tail = none → s.grow = s) ∧
    (∀ s2 : Snake, s2.body ≠ [] → s2.update.body.length ≤ s2.body.length) := by
  have hhead : s.body.getD 0 dummyObject = h := by rw [hbody]; rfl
  have hcolB : Snake.self_collision_check s.body (s.body.getD 0 dummyObject) = false := by
    rw [hhead]
    unfold Snake.self_collision_check
    rw [hbody]
    show rest.any _ = false
    rw [List.any_eq_false]
    intro x hx
    simp only [decide_eq_true_eq]
    exact hcol x hx
  have hne : s.body ≠ [] := by rw [hbody]; exact List.cons_ne_nil h rest
  refine ⟨?_, ?_, ?_, fun s2 => update_length_le s2⟩
  · rw [update_of_survive s halive (hhead ▸ hoob) hcolB]
    exact move_head_length s hne
  · intro t ht
    simp [Snake.grow, ht]
  · intro hn
    simp [Snake.grow, hn]

/-- Witness for C7 (amended): the default snake satisfies every
hypothesis, and its update keeps the length at 5. -/
theorem claim_C7_witness :
    Snake.default.update.body.length = Snake.default.body.length :=
  (claim_C7_amended Snake.default
    ⟨⟨13, 12⟩, Snake.HORIZONTAL_GLYPH, Snake.COLOUR⟩
    (List.replicate 4 ⟨⟨12, 12⟩, Snake.HORIZONTAL_GLYPH, Snake.COLOUR⟩)
    (by rfl) (by rfl) (by decide) (by decide)).1

set_option maxRecDepth 100000 in
/-- **C8** (counterexample): a game state with `game_over = false` and a
full-map body (length 625) in which the snake is dead and the game paused:
`handle_logic` does set `game_over`, but `alive` does not "remain true"
(it is false) and the rendering shows the pause label, not the
"You won!" line — so the claim fails as stated for every such state. -/
theorem claim_C8_counterexample :
    c8LostGame.game_over = false ∧
    c8LostGame.snake.body.length = MAP_DIMENSIONS.1 * MAP_DIMENSIONS.2 ∧
    (Game.handle_logic 0 0 c8LostGame).map
        (fun g => (g.game_over, g.snake.alive, Game.handle_rendering g)) =
      some (true, false, Game.RenderOutput.paused_screen) := by
  refine ⟨rfl, by rfl, ?_⟩
  have hlen : c8LostGame.snake.body.length = MAP_DIMENSIONS.1 * MAP_DIMENSIONS.2 := by rfl
  have hgate : decide ((1 : ℚ) / (SLITHERS_PER_SECOND : ℚ) < (0 : ℚ)) = false := by
    norm_num [SLITHERS_PER_SECOND]
  have h1 : c8LostGame.game_over = false := rfl
  have h2 : c8LostGame.snake.alive = false := rfl
  have h3 : c8LostGame.paused = true := rfl
  simp [Game.handle_logic, Game.check_status, Game.eat_check, Game.update_snake,
      Game.handle_rendering, hlen, hgate, h1, h2, h3]
  norm_num [SLITHERS_PER_SECOND, h2, h3]

/-- **C8** (amended): for every unpaused game state with `game_over =
false`, a live snake and body length 625 = 25 × 25, `handle_logic` sets
`game_over` while `alive` stays true and the score is untouched, and
`handle_rendering` on the resulting state prints the "You won!" line. -/
theorem claim_C8_amended (g : Game) (pick : Nat) (delta : ℚ)
    (hgo : g.game_over = false)
    (hlen : g.snake.body.length = MAP_DIMENSIONS.1 * MAP_DIMENSIONS.2)
    (halive : g.snake.alive = true) (hpause : g.paused = false) :
    ∃ g2, Game.handle_logic pick delta g = some g2 ∧
      g2.game_over = true ∧ g2.snake.alive = true ∧ g2.score = g.score ∧
      Game.handle_rendering g2 = Game.RenderOutput.game_over_screen "You won!" := by
  obtain ⟨sn, fr, sc, go, pa⟩ := g
  simp only at hgo halive hpause hlen
  subst hgo
  subst hpause
  refine ⟨⟨sn, fr, sc, true, false⟩, ?_, rfl, halive, rfl, ?_⟩
  · simp [Game.handle_logic, Game.check_status, Game.eat_check, Game.update_snake,
      hlen, halive]
  · simp [Game.handle_rendering, halive]

set_option maxRecDepth 100000 in
/-- Witness for C8 (amended) at the concrete full-map live unpaused
game. -/
theorem claim_C8_witness :
    ∃ g2, Game.handle_logic 0 0 c8WinGame = some g2 ∧
      g2.game_over = true ∧ g2.snake.alive = true ∧ g2.score = c8WinGame.score ∧
      Game.handle_rendering g2 = Game.RenderOutput.game_over_screen "You won!" :=
  claim_C8_amended c8WinGame 0 0 rfl (by rfl) rfl rfl

theorem spawn_fruit_fields (pick : Nat) (g g2 : Game)
    (h : Game.spawn_fruit pick g = some g2) :
    g2.snake = g.snake ∧ g2.score = g.score ∧ g2.game_over = g.game_over ∧
    g2.paused = g.paused := by
  unfold Game.spawn_fruit at h
  cases hl : Game.get_empty_points g with
  | nil =>
    rw [hl] at h
    cases h
  | cons a t =>
    rw [hl] at h
    cases h
    exact ⟨rfl, rfl, rfl, rfl⟩

/-- **C9**: any game produced by `Game::new` (whatever the RNG picked for
the fruit) has the default snake — body length 5, head at
`(MAP_CENTRE.0 + 1, MAP_CENTRE.1) = (13, 12)`, direction East, all
segments drawn with the horizontal glyph in the live colour, alive, no
pending corner repaint, no popped tail — and game_over = false, paused =
false, score = 0. -/
theorem claim_C9_fresh_game (pick : Nat) (g : Game)
    (hg : Game.game_new pick = some g) :
    g.snake.body.length = 5 ∧
    (g.snake.body.getD 0 dummyObject).position = ⟨13, 12⟩ ∧
    g.snake.direction = Direction.East ∧
    (∀ o ∈ g.snake.body, o.glyph = Snake.HORIZONTAL_GLYPH ∧ o.colour = Snake.COLOUR) ∧
    g.snake.alive = true ∧
    g.snake.requires_corner_update = false ∧
    g.snake.popped_tail = none ∧
    g.game_over = false ∧ g.paused = false ∧ g.score = 0 := by
  obtain ⟨hsn, hsc, hgo, hpa⟩ := spawn_fruit_fields pick Game.initial_game g hg
  rw [hsn]
  refine ⟨rfl, rfl, rfl, ?_, rfl, rfl, rfl, hgo, hpa, hsc⟩
  intro o ho
  simp only [Game.initial_game, Snake.default, List.mem_cons, List.mem_replicate] at ho
  rcases ho with h1 | ⟨-, h2⟩
  · subst h1
    exact ⟨rfl, rfl⟩
  · subst h2
    exact ⟨rfl, rfl⟩

set_option maxRecDepth 100000 in
/-- Witness for C9 at RNG pick 0 (fruit lands on `(0, 0)`). -/
theorem claim_C9_witness :
    c9Game.snake.body.length = 5 ∧
    (c9Game.snake.body.getD 0 dummyObject).position = ⟨13, 12⟩ ∧
    c9Game.snake.direction = Direction.East ∧
    (∀ o ∈ c9Game.snake.body, o.glyph = Snake.HORIZONTAL_GLYPH ∧ o.colour = Snake.COLOUR) ∧
    c9Game.snake.alive = true ∧
    c9Game.snake.requires_corner_update = false ∧
    c9Game.snake.popped_tail = none ∧
    c9Game.game_over = false ∧ c9Game.paused = false ∧ c9Game.score = 0 :=
  claim_C9_fresh_game 0 c9Game (by rfl)

/-- **C10**: in the default snake the four non-head segments all sit on
`MAP_CENTRE = (12, 12)` (two distinct occupied cells in total), and this
overlap does not kill the snake on `update`: the self-collision check only
compares the head's position with the later segments, which are all away
from the head, so the snake stays alive. -/
theorem claim_C10_default_overlap :
    Snake.default.body.map Object.position =
      [⟨13, 12⟩, ⟨12, 12⟩, ⟨12, 12⟩, ⟨12, 12⟩, ⟨12, 12⟩] ∧
    (Snake.default.body.map Object.position).dedup.length = 2 ∧
    Snake.self_collision_check Snake.default.body
      (Snake.default.body.getD 0 dummyObject) = false ∧
    Snake.default.update.alive = true := by
  decide

/-! ### C3: the fruit-spawn candidate list is never empty in reachable states

Key structure of the argument: the probes of `get_empty_points` consume the
segment-position iterator, so for a map cell to be excluded (other than by
the fruit check) the iterator must produce that exact cell at its current
position.  Consecutive snake segments are at Manhattan distance ≤ 1, so
between the matches for the last cell of one row, `(24, y)`, and the first
cell of the next, `(0, y + 1)`, the iterator must emit at least 25
segments.  Excluding all 625 cells would therefore take far more than the
at most 625 segments the snake can have. -/

theorem dist_self (a : Pt) : dist a a = 0 := by
  unfold dist
  simp

theorem dist_comm (a b : Pt) : dist a b = dist b a := by
  unfold dist
  rw [← Int.natAbs_neg (a.x - b.x), ← Int.natAbs_neg (a.y - b.y)]
  ring_nf

theorem adj_symm {a b : Pt} (h : adj a b) : adj b a := by
  unfold adj at *
  rw [dist_comm]
  exact h

theorem adj_self (a : Pt) : adj a a := by
  unfold adj
  rw [dist_self]
  omega

theorem dist_triangle (a b c : Pt) : dist a c ≤ dist a b + dist b c := by
  unfold dist
  have hx : (a.x - c.x).natAbs ≤ (a.x - b.x).natAbs + (b.x - c.x).natAbs := by
    have hs : a.x - c.x = (a.x - b.x) + (b.x - c.x) := by ring
    rw [hs]
    exact Int.natAbs_add_le _ _
  have hy : (a.y - c.y).natAbs ≤ (a.y - b.y).natAbs + (b.y - c.y).natAbs := by
    have hs : a.y - c.y = (a.y - b.y) + (b.y - c.y) := by ring
    rw [hs]
    exact Int.natAbs_add_le _ _
  omega

theorem adj_add_to_vector (p : Pt) (d : Direction) : adj (p + d.to_vector) p := by
  cases d
  · show (p.x + 0 - p.x).natAbs + (p.y + -1 - p.y).natAbs ≤ 1
    omega
  · show (p.x + 1 - p.x).natAbs + (p.y + 0 - p.y).natAbs ≤ 1
    omega
  · show (p.x + 0 - p.x).natAbs + (p.y + 1 - p.y).natAbs ≤ 1
    omega
  · show (p.x + -1 - p.x).natAbs + (p.y + 0 - p.y).natAbs ≤ 1
    omega

theorem scanAny_cons (q : Pt) (rest : List Pt) (p : Pt) :
    Game.scanAny (q :: rest) p =
      if q = p then (true, rest) else Game.scanAny rest p := rfl

theorem scanAny_not_found : ∀ (rem : List Pt) (p : Pt),
    (Game.scanAny rem p).1 = false → (Game.scanAny rem p).2 = [] := by
  intro rem
  induction rem with
  | nil => intro p _; rfl
  | cons q rest ih =>
    intro p h
    rw [scanAny_cons] at h ⊢
    by_cases hq : q = p
    · rw [if_pos hq] at h
      cases h
    · rw [if_neg hq] at h ⊢
      exact ih p h

theorem scanAny_found_bound : ∀ (rem : List Pt) (a p : Pt),
    (Game.scanAny rem p).1 = true → List.Chain' adj (a :: rem) →
    dist a p + (Game.scanAny rem p).2.length ≤ rem.length ∧
    List.Chain' adj (p :: (Game.scanAny rem p).2) := by
  intro rem
  induction rem with
  | nil => intro a p h _; cases h
  | cons q rest ih =>
    intro a p h hchain
    obtain ⟨haq, hchain2⟩ := List.chain'_cons.mp hchain
    rw [scanAny_cons] at h ⊢
    by_cases hq : q = p
    · subst hq
      rw [if_pos rfl] at h ⊢
      constructor
      · have h1 : dist a q ≤ 1 := haq
        simp only [List.length_cons]
        omega
      · exact hchain2
    · rw [if_neg hq] at h ⊢
      obtain ⟨hb, hc⟩ := ih q p h hchain2
      refine ⟨?_, hc⟩
      have htri : dist a p ≤ dist a q + dist q p := dist_triangle a q p
      have haq1 : dist a q ≤ 1 := haq
      simp only [List.length_cons]
      omega

theorem go_nil_rem : ∀ (points : List Pt) (fruit : Pt),
    Game.get_empty_points_go [] fruit points = [] → ∀ q ∈ points, q = fruit := by
  intro points
  induction points with
  | nil => intro fruit _ q hq; cases hq
  | cons p ps ih =>
    intro fruit h q hq
    unfold Game.get_empty_points_go at h
    dsimp only at h
    by_cases hf : fruit ≠ p
    · rw [if_pos ⟨rfl, hf⟩] at h
      cases h
    · rw [if_neg (fun hc => hf hc.2)] at h
      rcases List.mem_cons.mp hq with hq | hq
      · subst hq
        push_neg at hf
        exact hf.symm
      · exact ih fruit h q hq

/-- Main counting bound: if the fold of `get_empty_points` returns the
empty list, the iterator must have held at least `needLB` elements — each
excluded point is matched by consumed iterator elements walking at
Manhattan speed ≤ 1 from the previous match (anchor `a`), and only the
final point can instead be soaked up by the fruit check. -/
theorem go_lower_bound : ∀ (points : List Pt) (fruit a : Pt) (rem : List Pt),
    List.count fruit points ≤ 1 →
    List.Chain' adj (a :: rem) →
    Game.get_empty_points_go rem fruit points = [] →
    needLB fruit a points ≤ rem.length := by
  intro points
  induction points with
  | nil =>
    intro fruit a rem _ _ _
    exact Nat.zero_le _
  | cons p ps ih =>
    intro fruit a rem hcount hchain hEmpty
    unfold Game.get_empty_points_go at hEmpty
    dsimp only at hEmpty
    by_cases hcond : (Game.scanAny rem p).1 = false ∧ fruit ≠ p
    · rw [if_pos hcond] at hEmpty
      cases hEmpty
    · rw [if_neg hcond] at hEmpty
      cases hfound : (Game.scanAny rem p).1 with
      | true =>
        obtain ⟨hb, hc⟩ := scanAny_found_bound rem a p hfound hchain
        have hcount2 : List.count fruit ps ≤ 1 := by
          rw [List.count_cons] at hcount
          omega
        have hrec := ih fruit p (Game.scanAny rem p).2 hcount2 hc hEmpty
        cases ps with
        | nil =>
          unfold needLB
          split
          · exact Nat.zero_le _
          · omega
        | cons q ps2 =>
          show dist a p + needLB fruit p (q :: ps2) ≤ rem.length
          omega
      | false =>
        have hf : fruit = p := by
          by_contra hne
          exact hcond ⟨hfound, hne⟩
        have hnil : (Game.scanAny rem p).2 = [] := scanAny_not_found rem p hfound
        rw [hnil] at hEmpty
        have hall := go_nil_rem ps fruit hEmpty
        have hps : ps = [] := by
          cases ps with
          | nil => rfl
          | cons q ps2 =>
            exfalso
            have hq : q = fruit := hall q (List.mem_cons_self q ps2)
            have hbq : (q == fruit) = true := by
              rw [hq]
              exact beq_self_eq_true fruit
            have hbp : (p == fruit) = true := by
              rw [hf]
              exact beq_self_eq_true p
            have h2 : List.count fruit (p :: q :: ps2) = List.count fruit ps2 + 2 := by
              rw [List.count_cons, List.count_cons, hbq, hbp]
              simp
            omega
        subst hps
        unfold needLB
        rw [if_pos hf.symm]
        exact Nat.zero_le _

/-- `needNF` never exceeds `needLB`. -/
theorem needNF_le_needLB : ∀ (ps : List Pt) (fruit a : Pt),
    needNF a ps ≤ needLB fruit a ps := by
  intro ps
  induction ps with
  | nil =>
    intro fruit a
    exact Nat.le_refl 0
  | cons p ps2 ih =>
    intro fruit a
    cases ps2 with
    | nil =>
      unfold needLB needNF
      split
      · exact Nat.zero_le _
      · exact Nat.zero_le _
    | cons q ps3 =>
      show dist a p + needNF p (q :: ps3) ≤ dist a p + needLB fruit p (q :: ps3)
      have := ih fruit p
      omega

/-- Dropping the anchor cannot increase `needNF`. -/
theorem needNF_anchor_drop (ps : List Pt) (a p : Pt) :
    needNF p ps ≤ needNF a (p :: ps) := by
  cases ps with
  | nil => exact Nat.le_refl 0
  | cons q ps2 =>
    show needNF p (q :: ps2) ≤ dist a p + needNF p (q :: ps2)
    omega

theorem raster_nodup : Game.raster_points.Nodup := by
  unfold Game.raster_points
  rw [List.nodup_flatMap]
  constructor
  · intro y hy
    exact List.Nodup.map
      (fun x1 x2 hx => Int.ofNat.inj (congrArg Pt.x hx))
      (List.nodup_range _)
  · refine List.Pairwise.imp ?_ (List.pairwise_lt_range _)
    intro y1 y2 hlt p hp1 hp2
    simp only [List.mem_map, List.mem_range] at hp1 hp2
    obtain ⟨x1, -, he1⟩ := hp1
    obtain ⟨x2, -, he2⟩ := hp2
    have hy : y1 = y2 := Int.ofNat.inj (congrArg Pt.y (he1.trans he2.symm))
    omega

set_option maxRecDepth 1000000 in
theorem raster_head_tail :
    Game.raster_points = ⟨0, 0⟩ :: Game.raster_points.tail := by rfl

set_option maxRecDepth 1000000 in
theorem needNF_raster_tail : needNF ⟨0, 0⟩ Game.raster_points.tail = 1199 := by
  rfl

/-- The centrepiece: for any snake-shaped occupancy list (consecutive
positions adjacent, at most 625 segments) and any fruit position, the cell
list `get_empty_points` builds is non-empty. -/
theorem go_raster_ne_nil (body : List Pt) (fruit : Pt)
    (hchain : List.Chain' adj body) (hlen : body.length ≤ 625) :
    Game.get_empty_points_go body fruit Game.raster_points ≠ [] := by
  intro hEmpty
  have hcount : List.count fruit Game.raster_points ≤ 1 :=
    List.nodup_iff_count_le_one.mp raster_nodup fruit
  cases body with
  | nil =>
    have hall := go_nil_rem Game.raster_points fruit hEmpty
    have h0 : (⟨0, 0⟩ : Pt) = fruit := hall ⟨0, 0⟩ (by decide)
    have h1 : (⟨1, 0⟩ : Pt) = fruit := hall ⟨1, 0⟩ (by decide)
    have : (⟨0, 0⟩ : Pt) = (⟨1, 0⟩ : Pt) := h0.trans h1.symm
    cases this
  | cons b rest =>
    have hchain2 : List.Chain' adj (b :: b :: rest) :=
      List.chain'_cons.mpr ⟨adj_self b, hchain⟩
    have hineq := go_lower_bound Game.raster_points fruit b (b :: rest)
      hcount hchain2 hEmpty
    have hge : 1199 ≤ needLB fruit b Game.raster_points := by
      have h1 : needNF b Game.raster_points ≤ needLB fruit b Game.raster_points :=
        needNF_le_needLB Game.raster_points fruit b
    -- needNF b raster = needNF b ((0,0) :: tail) ≥ needNF (0,0) tail = 1199
      have h2 : needNF ⟨0, 0⟩ Game.raster_points.tail ≤ needNF b Game.raster_points := by
        conv_rhs => rw [raster_head_tail]
        exact needNF_anchor_drop Game.raster_points.tail b ⟨0, 0⟩
      rw [needNF_raster_tail] at h2
      omega
    simp only [List.length_cons] at hineq hlen
    omega

/-! ### The snake invariant is preserved by every game operation -/

theorem snakeInv_congr (s1 s2 : Snake)
    (hb : s2.body.map Object.position = s1.body.map Object.position)
    (hp : s2.popped_tail = s1.popped_tail) (h : SnakeInv s1) : SnakeInv s2 := by
  obtain ⟨hchain, hlen, htail⟩ := h
  refine ⟨?_, ?_, ?_⟩
  · rw [hb]
    exact hchain
  · have h2 := congrArg List.length hb
    simp only [List.length_map] at h2
    omega
  · intro t ht b hbl
    rw [hp] at ht
    rw [hb] at hbl
    exact htail t ht b hbl

theorem snakeInv_default : SnakeInv Snake.default := by
  refine ⟨?_, by decide, ?_⟩
  · show List.Chain' adj
      [⟨13, 12⟩, ⟨12, 12⟩, ⟨12, 12⟩, ⟨12, 12⟩, ⟨12, 12⟩]
    refine List.chain'_cons.mpr ⟨by decide, ?_⟩
    refine List.chain'_cons.mpr ⟨by decide, ?_⟩
    refine List.chain'_cons.mpr ⟨by decide, ?_⟩
    refine List.chain'_cons.mpr ⟨by decide, ?_⟩
    exact List.chain'_singleton _
  · intro t ht
    cases ht

theorem death_pass_map_position (s : Snake) :
    (Snake.death_pass s).body.map Object.position = s.body.map Object.position := by
  unfold Snake.death_pass
  split
  · dsimp only
    split
    · rfl
    · show (s.body.map _).map _ = _
      rw [List.map_map]
      rfl
  · rfl

theorem death_pass_popped (s : Snake) :
    (Snake.death_pass s).popped_tail = s.popped_tail := by
  unfold Snake.death_pass
  split
  · dsimp only
    split
    · rfl
    · rfl
  · rfl

theorem chain'_dropLast_adj (l : List Pt) (hchain : List.Chain' adj l)
    (a : Pt) (ha : l.getLast? = some a) (b : Pt)
    (hb : l.dropLast.getLast? = some b) : adj b a := by
  have hsplit : l.dropLast ++ [a] = l :=
    List.dropLast_append_getLast? a (Option.mem_def.mpr ha)
  rw [← hsplit] at hchain
  obtain ⟨-, -, hcross⟩ := List.chain'_append.mp hchain
  exact hcross b (Option.mem_def.mpr hb) a (Option.mem_def.mpr rfl)

theorem getLast?_cons_of_ne_nil {α : Type} (x : α) (l : List α) (hl : l ≠ []) :
    (x :: l).getLast? = l.getLast? := by
  cases l with
  | nil => exact absurd rfl hl
  | cons b t => exact List.getLast?_cons_cons

theorem snakeInv_move_head (s : Snake) (h : SnakeInv s) :
    SnakeInv (Snake.move_head s) := by
  obtain ⟨body, dir, pt, rcu, alive⟩ := s
  obtain ⟨hchain, hlen, htail⟩ := h
  simp only at hchain hlen htail
  unfold Snake.move_head
  dsimp only
  refine snakeInv_congr _ _ (ucg_map_position _) ((ucg_fields _).1) ?_
  cases body with
  | nil =>
    refine ⟨List.chain'_singleton _, ?_, ?_⟩
    · show (1 : Nat) ≤ 625
      omega
    · intro t ht
      have ht2 : (none : Option Object) = some t := ht
      cases ht2
  | cons h0 rest =>
    have hpb2 : (Snake.popBack (h0 :: rest)).2 = (h0 :: rest).dropLast := popBack_snd _
    have hpb1 : (Snake.popBack (h0 :: rest)).1 = (h0 :: rest).getLast? := popBack_fst _
    refine ⟨?_, ?_, ?_⟩
    · dsimp only
      rw [List.map_cons, hpb2]
      refine List.chain'_cons'.mpr ⟨?_, ?_⟩
      · intro y hy
        cases rest with
        | nil =>
          rw [Option.mem_def] at hy
          cases hy
        | cons r1 rest2 =>
          rw [Option.mem_def] at hy
          have hy2 : some h0.position = some y := hy
          cases hy2
          exact adj_add_to_vector h0.position dir
      · rw [List.map_dropLast]
        exact List.Chain'.prefix hchain ( List.dropLast_prefix _)
    · dsimp only
      rw [hpb2]
      simp only [List.length_cons, List.length_dropLast] at hlen ⊢
      omega
    · intro t ht b hb
      dsimp only at ht hb
      rw [hpb1] at ht
      rw [List.map_cons, hpb2] at hb
      show adj t.position b
      cases rest with
      | nil =>
        have ht2 : some h0 = some t := ht
        cases ht2
        have hb2 : some (h0.position + dir.to_vector) = some b := hb
        cases hb2
        exact adj_symm (adj_add_to_vector h0.position dir)
      | cons r1 rest2 =>
        have htM : ((h0 :: r1 :: rest2).map Object.position).getLast? = some t.position := by
          rw [List.getLast?_map, ht]
          rfl
        have hne2 : List.map Object.position ((h0 :: r1 :: rest2).dropLast) ≠ [] := by
          rw [show (h0 :: r1 :: rest2).dropLast = h0 :: (r1 :: rest2).dropLast from rfl,
            List.map_cons]
          intro hcon
          cases hcon
        rw [getLast?_cons_of_ne_nil _ _ hne2] at hb
        have hbM : (((h0 :: r1 :: rest2).map Object.position).dropLast).getLast? = some b := by
          rw [← List.map_dropLast]
          exact hb
        exact adj_symm (chain'_dropLast_adj _ hchain t.position htM b hbM)

theorem snakeInv_update (s : Snake) (h : SnakeInv s) : SnakeInv s.update := by
  have hdp : SnakeInv (Snake.death_pass s) :=
    snakeInv_congr _ _ (death_pass_map_position s) (death_pass_popped s) h
  unfold Snake.update
  dsimp only
  split
  · exact snakeInv_move_head _ hdp
  · obtain ⟨hchain, hlen, htail⟩ := hdp
    refine ⟨?_, ?_, ?_⟩
    · show List.Chain' adj ((Snake.death_pass s).body.tail.map Object.position)
      rw [List.map_tail]
      exact hchain.tail
    · show (Snake.death_pass s).body.tail.length ≤ _
      rw [List.length_tail]
      omega
    · intro t ht b hb
      show adj t.position b
      have ht2 : (Snake.death_pass s).popped_tail = some t := ht
      have hb2 : ((Snake.death_pass s).body.tail.map Object.position).getLast? = some b := hb
      rw [List.map_tail] at hb2
      cases hM : (Snake.death_pass s).body.map Object.position with
      | nil =>
        rw [hM] at hb2
        cases hb2
      | cons m0 mt =>
        rw [hM] at hb2
        have hmt : mt ≠ [] := by
          intro hcon
          rw [hcon] at hb2
          cases hb2
        apply htail t ht2 b
        rw [hM, getLast?_cons_of_ne_nil m0 mt hmt]
        exact hb2

theorem snakeInv_grow (s : Snake) (h : SnakeInv s)
    (hlen : s.body.length + 1 ≤ MAP_DIMENSIONS.1 * MAP_DIMENSIONS.2) :
    SnakeInv s.grow := by
  obtain ⟨hchain, hl, htail⟩ := h
  unfold Snake.grow
  cases hp : s.popped_tail with
  | none =>
    refine ⟨hchain, hl, ?_⟩
    intro t ht
    rw [hp] at ht
    cases ht
  | some t0 =>
    dsimp only
    refine ⟨?_, ?_, ?_⟩
    · show List.Chain' adj ((s.body ++ [t0]).map Object.position)
      rw [List.map_append]
      rw [List.chain'_append]
      refine ⟨hchain, List.chain'_singleton _, ?_⟩
      intro x hx y hy
      rw [Option.mem_def] at hx hy
      have hy2 : some t0.position = some y := hy
      cases hy2
      exact adj_symm (htail t0 hp x hx)
    · show (s.body ++ [t0]).length ≤ _
      rw [List.length_append]
      simp only [List.length_cons, List.length_nil] at *
      omega
    · intro t ht b hb
      show adj t.position b
      have ht2 : some t0 = some t := ht
      cases ht2
      have hb2 : ((s.body ++ [t0]).map Object.position).getLast? = some b := hb
      rw [List.map_append] at hb2
      have hb3 : (s.body.map Object.position ++ [t0.position]).getLast? = some b := hb2
      rw [List.getLast?_concat] at hb3
      cases hb3
      exact adj_self _

/-! ### Game-level preservation: every tick from an invariant state succeeds -/

theorem get_empty_points_ne_nil (g : Game) (hInv : GameInv g) :
    g.get_empty_points ≠ [] := by
  obtain ⟨hchain, hlen, -⟩ := hInv
  unfold Game.get_empty_points
  apply go_raster_ne_nil
  · exact hchain
  · rw [List.length_map]
    exact hlen

theorem spawn_fruit_some (pick : Nat) (g : Game) (hInv : GameInv g) :
    ∃ g2, Game.spawn_fruit pick g = some g2 ∧ GameInv g2 ∧ g2.snake = g.snake := by
  have hne := get_empty_points_ne_nil g hInv
  unfold Game.spawn_fruit
  dsimp only
  cases hl : Game.get_empty_points g with
  | nil => exact absurd hl hne
  | cons a t => exact ⟨_, rfl, hInv, rfl⟩

theorem gameInv_update_snake (delta : ℚ) (g : Game) (h : GameInv g) :
    GameInv (Game.update_snake delta g) := by
  unfold Game.update_snake
  split
  · exact snakeInv_update g.snake h
  · exact h

theorem check_status_snake (g : Game) : (Game.check_status g).snake = g.snake := by
  unfold Game.check_status
  split
  · rfl
  · rfl

theorem check_status_not_won (g : Game)
    (h : (Game.check_status g).game_over = false) :
    g.snake.body.length ≠ MAP_DIMENSIONS.1 * MAP_DIMENSIONS.2 := by
  unfold Game.check_status at h
  split at h
  · dsimp only at h
    intro hcon
    rw [hcon] at h
    simp at h
  · rename_i hgo
    exact absurd h hgo

theorem eat_check_some (pick : Nat) (g1 : Game) (hInv : GameInv g1)
    (hne : g1.game_over = false →
      g1.snake.body.length ≠ MAP_DIMENSIONS.1 * MAP_DIMENSIONS.2) :
    ∃ g2, Game.eat_check pick g1 = some g2 ∧ GameInv g2 := by
  unfold Game.eat_check
  split
  case isTrue hc =>
    have hgrow : SnakeInv g1.snake.grow := by
      apply snakeInv_grow _ hInv
      obtain ⟨-, hlen, -⟩ := hInv
      have h2 := hne hc.1
      omega
    obtain ⟨g3, hg3, hInv3, -⟩ := spawn_fruit_some pick
      { g1 with score := g1.score + 1, snake := g1.snake.grow } hgrow
    exact ⟨g3, hg3, hInv3⟩
  case isFalse => exact ⟨g1, rfl, hInv⟩

theorem handle_logic_some (pick : Nat) (delta : ℚ) (g : Game) (hInv : GameInv g) :
    ∃ g2, Game.handle_logic pick delta g = some g2 ∧ GameInv g2 := by
  have hInv1 : GameInv (Game.check_status g) := by
    unfold GameInv
    rw [check_status_snake]
    exact hInv
  obtain ⟨g2, hg2, hInv2⟩ := eat_check_some pick (Game.check_status g) hInv1
    (fun hfalse => by
      rw [check_status_snake]
      exact check_status_not_won g hfalse)
  refine ⟨Game.update_snake delta g2, ?_, gameInv_update_snake delta g2 hInv2⟩
  unfold Game.handle_logic
  rw [hg2]
  rfl

theorem set_direction_fields (s : Snake) (d : Direction) :
    (s.set_direction d).body = s.body ∧
    (s.set_direction d).popped_tail = s.popped_tail := by
  unfold Snake.set_direction
  cases hb : s.body with
  | nil => exact ⟨hb, rfl⟩
  | cons h t =>
    cases t with
    | nil => exact ⟨hb, rfl⟩
    | cons n rest =>
      dsimp only
      split
      · exact ⟨rfl, rfl⟩
      · exact ⟨hb, rfl⟩

theorem reset_some (pick : Nat) (g : Game) :
    ∃ g2, Game.reset pick g = some g2 ∧ GameInv g2 := by
  have hInvD : GameInv ({ g with snake := Snake.default } : Game) := snakeInv_default
  obtain ⟨g3, hg3, hInv3, -⟩ := spawn_fruit_some pick { g with snake := Snake.default } hInvD
  refine ⟨{ g3 with score := 0, game_over := false }, ?_, hInv3⟩
  unfold Game.reset
  rw [hg3]
  rfl

theorem execute_input_some (pick : Nat) (g : Game) (k : Key) (h : GameInv g) :
    ∃ g2, Game.execute_input pick g k = some g2 ∧ GameInv g2 := by
  unfold Game.execute_input
  split
  · refine ⟨_, rfl, ?_⟩
    cases k <;>
      first
        | exact h
        | (dsimp only
           split
           · exact snakeInv_congr _ _
               (by rw [(set_direction_fields _ _).1]) ((set_direction_fields _ _).2) h
           · exact h)
  · split
    · exact reset_some pick g
    · exact ⟨g, rfl, h⟩

theorem handle_input_some (pick : Nat) (keys : List Key) (g : Game) (h : GameInv g) :
    ∃ g2, Game.handle_input pick keys g = some g2 ∧ GameInv g2 := by
  induction keys generalizing g with
  | nil => exact ⟨g, rfl, h⟩
  | cons k ks ih =>
    obtain ⟨g1, hg1, hInv1⟩ := execute_input_some pick g k h
    obtain ⟨g2, hg2, hInv2⟩ := ih g1 hInv1
    refine ⟨g2, ?_, hInv2⟩
    unfold Game.handle_input at hg2 ⊢
    rw [List.foldlM_cons, hg1]
    exact hg2

theorem tick_some (keys : List Key) (p1 p2 : Nat) (delta : ℚ) (g : Game)
    (h : GameInv g) :
    ∃ g2, Game.tick keys p1 p2 delta g = some g2 ∧ GameInv g2 := by
  obtain ⟨g1, hg1, hInv1⟩ := handle_input_some p1 keys g h
  by_cases hp : g1.paused = false
  · obtain ⟨g2, hg2, hInv2⟩ := handle_logic_some p2 delta g1 hInv1
    refine ⟨g2, ?_, hInv2⟩
    unfold Game.tick
    rw [hg1]
    show (if g1.paused = false then Game.handle_logic p2 delta g1 else pure g1) = some g2
    rw [if_pos hp]
    exact hg2
  · refine ⟨g1, ?_, hInv1⟩
    unfold Game.tick
    rw [hg1]
    show (if g1.paused = false then Game.handle_logic p2 delta g1 else pure g1) = some g1
    rw [if_neg hp]
    rfl

theorem reachable_inv (g : Game) (h : Game.Reachable g) : GameInv g := by
  induction h with
  | init pick g hg =>
    obtain ⟨hsn, -, -, -⟩ := spawn_fruit_fields pick Game.initial_game g hg
    unfold GameInv
    rw [hsn]
    exact snakeInv_default
  | step g keys p1 p2 delta g2 hr htick ih =>
    obtain ⟨g3, htick2, hInv3⟩ := tick_some keys p1 p2 delta g ih
    rw [htick] at htick2
    cases htick2
    exact hInv3

/-- **C3**: from every game state reachable from a fresh game by ticks
(over all input, RNG and timing oracles), `handle_logic` never reaches the
fatal `expect("Failed to spawn fruit")` branch: the candidate list
`get_empty_points` builds is non-empty whenever `spawn_fruit` runs.
(This holds for a structural reason — the snake's at most 625
chain-adjacent segments cannot knock every map cell out of the consumed
segment-position iterator — rather than the claim's "win check precedes
the fruit-collision check": the win check reads the pre-eat length, so it
does not by itself protect the spawn.) -/
theorem claim_C3_spawn_never_fails (g : Game) (hr : Game.Reachable g)
    (pick : Nat) (delta : ℚ) : Game.handle_logic pick delta g ≠ none := by
  obtain ⟨g2, hg2, -⟩ := handle_logic_some pick delta g (reachable_inv g hr)
  rw [hg2]
  exact Option.noConfusion

set_option maxRecDepth 1000000 in
/-- Witness for C3 at the concrete fresh game with RNG pick 0. -/
theorem claim_C3_witness : Game.handle_logic 0 0 c9Game ≠ none :=
  claim_C3_spawn_never_fails c9Game (Game.Reachable.init 0 c9Game (by rfl)) 0 0

end SnakeVerify
